import Mathlib

/-!
Verification development for the SeekPro thermal-camera driver (seekpro.py).

The Python source is shallowly embedded: images are total functions
on natural-number coordinates carrying 16-bit unsigned samples, the USB bulk
stream is a list of byte chunks, and the blocking acquisition loops become
recursions over the simulated input.  Unsigned 16-bit numpy arithmetic is
modelled explicitly modulo 2^16.
-/

/-- Source constant WIDTH = 320. -/
def WIDTH : ℕ := 320

/-- Source constant HEIGHT = 240. -/
def HEIGHT : ℕ := 240

/-- Source constant RAW_WIDTH = 342. -/
def RAW_WIDTH : ℕ := 342

/-- Source constant RAW_HEIGHT = 260. -/
def RAW_HEIGHT : ℕ := 260

/-- Images are total functions from (row, col) to sample values.  All samples
produced by the device are 16-bit unsigned (below 65536). -/
abbrev Grid : Type := ℕ → ℕ → ℕ

/-- Expected total byte count of one raw frame: toread = 2*RAW_WIDTH*RAW_HEIGHT
(seekpro.py line 140). -/
def toread : ℕ := 2 * RAW_WIDTH * RAW_HEIGHT

/-- Errors that the embedded grab can surface: a bulk-read timeout (the
simulated chunk sequence is exhausted while the loop still wants data), or an
out-of-range status-byte access ret[4]. -/
inductive GrabError where
  | timeout : GrabError
  | indexOOB : GrabError
deriving DecidableEq

/-- The accumulation loop of SeekPro.grab (seekpro.py lines 142-148): after the
first bulk read, keep reading 13680-byte chunks while more than 512 bytes are
missing.  The first argument is the remaining simulated bulk reads, the second
the bytes accumulated so far. -/
def readLoop : List (List ℕ) → List ℕ → Except GrabError (List ℕ)
  | [], acc =>
    if toread ≤ acc.length + 512 then Except.ok acc else Except.error GrabError.timeout
  | c :: rest, acc =>
    if toread ≤ acc.length + 512 then Except.ok acc else readLoop rest (acc ++ c)

/-- SeekPro.grab's byte accumulation: the first dev.read happens before the
while loop, then readLoop continues. -/
def grabRet (chunks : List (List ℕ)) : Except GrabError (List ℕ) :=
  match chunks with
  | [] => Except.error GrabError.timeout
  | c :: rest => readLoop rest c

/-- np.frombuffer(ret, dtype=np.uint16).reshape(RAW_HEIGHT, RAW_WIDTH):
little-endian 16-bit samples laid out row-major (seekpro.py lines 151-152). -/
def reshape (ret : List ℕ) : Grid :=
  fun i j => ret.getD (2 * (RAW_WIDTH * i + j)) 0 + 256 * ret.getD (2 * (RAW_WIDTH * i + j) + 1) 0

/-- Tail of SeekPro.grab (seekpro.py lines 149-154): read the status byte
ret[4] from the accumulated buffer, and return the reshaped frame only when
the accumulated length exactly equals toread, otherwise the status together
with no frame.  A failed accumulation propagates; a status read out of bounds
would be an IndexError. -/
def grabFinish : Except GrabError (List ℕ) → Except GrabError (ℕ × Option Grid)
  | Except.error e => Except.error e
  | Except.ok ret =>
    match ret.get? 4 with
    | none => Except.error GrabError.indexOOB
    | some s =>
      if ret.length = toread then Except.ok (s, some (reshape ret))
      else Except.ok (s, none)

/-- SeekPro.grab (seekpro.py lines 134-154): accumulate the simulated bulk
reads, then classify. -/
def grabModel (chunks : List (List ℕ)) : Except GrabError (ℕ × Option Grid) :=
  grabFinish (grabRet chunks)

/-- SeekPro.crop (seekpro.py lines 73-75): raw_img[4:4+HEIGHT, 1:1+WIDTH]. -/
def crop (raw : Grid) : Grid := fun i j => raw (i + 4) (j + 1)

/-- Row indices of the slice img[max(0,i-1):i+2, ...] on a HEIGHT-row array
(seekpro.py line 70).  Natural subtraction realises max(0, i-1) and Python
slicing clips the upper bound at HEIGHT. -/
def windowRows (i : ℕ) : List ℕ := List.range' (i - 1) (min (i + 2) HEIGHT - (i - 1))

/-- Column indices of the slice img[..., max(0,j-1):j+2] on a WIDTH-column
array (seekpro.py line 70). -/
def windowCols (j : ℕ) : List ℕ := List.range' (j - 1) (min (j + 2) WIDTH - (j - 1))

/-- The coordinates of the clipped (up to 3x3) neighbourhood around (i, j)
used by correct_dead_pix, in row-major order. -/
def windowCells (i j : ℕ) : List (ℕ × ℕ) :=
  (windowRows i).flatMap (fun a => (windowCols j).map (fun b => (a, b)))

/-- The sample values of the clipped neighbourhood of (i, j) in img. -/
def deadWindow (img : Grid) (i j : ℕ) : List ℕ :=
  (windowCells i j).map (fun q => img q.1 q.2)

/-- Ascending sort, as performed internally by np.median. -/
def sortNat (l : List ℕ) : List ℕ := List.insertionSort (fun a b => a ≤ b) l

/-- np.median on integer samples followed by the assignment back into an
integer ndarray cell: the middle element for odd length, and the mean of the
two middle elements truncated toward zero (the float result is cast back to
the integer dtype) for even length. -/
def npMedian (l : List ℕ) : ℕ :=
  if l.length % 2 = 1 then (sortNat l).getD (l.length / 2) 0
  else ((sortNat l).getD (l.length / 2 - 1) 0 + (sortNat l).getD (l.length / 2) 0) / 2

/-- Functional update of one pixel, modelling img[i,j] = v. -/
def setPix (img : Grid) (i j v : ℕ) : Grid :=
  fun a b => if a = i ∧ b = j then v else img a b

/-- SeekPro.correct_dead_pix (seekpro.py lines 67-71): for each dead pixel, in
list order, replace its value with the median of the clipped neighbourhood of
the current (partially corrected) image. -/
def correct_dead_pix (dead : List (ℕ × ℕ)) (img : Grid) : Grid :=
  dead.foldl (fun im p => setPix im p.1 p.2 (npMedian (deadWindow im p.1 p.2))) img

/-- SeekPro.get_dead_pix_list (seekpro.py lines 58-65): crop the dead-pixel
frame and collect the coordinates of all samples below 100, in np.where's
row-major order. -/
def get_dead_pix_list (g : Grid) : List (ℕ × ℕ) :=
  (List.range HEIGHT).flatMap
    (fun i => ((List.range WIDTH).filter (fun j => decide (crop g i j < 100))).map
      (fun j => (i, j)))

/-- Unsigned 16-bit numpy subtraction: a - b wraps modulo 2^16.  Both the
calibration reference (crop(img) - 1600 on a uint16 array) and the normal-frame
correction (crop(img) - calib) use this arithmetic. -/
def sub16 (a b : ℕ) : ℕ := (a + (65536 - b % 65536)) % 65536

/-- Calibration reference stored on a status-1 frame (seekpro.py line 164):
self.calib = self.crop(img) - 1600 on the uint16 frame. -/
def calibOf (raw : Grid) : Grid := fun i j => sub16 (crop raw i j) 1600

/-- The image delivered for a status-3 frame (seekpro.py line 167):
correct_dead_pix(crop(img) - calib) in uint16 arithmetic. -/
def imgOut (dead : List (ℕ × ℕ)) (raw c : Grid) : Grid :=
  correct_dead_pix dead (fun i j => sub16 (crop raw i j) (c i j))

/-- One result of SeekPro.grab as consumed by get_image: the status byte and
the frame, absent when grab returned None. -/
structure GrabOut where
  status : ℕ
  frame : Option Grid

/-- One iteration of the while-loop body of SeekPro.get_image (seekpro.py
lines 160-167) from a given calibration state: returns the new calibration
state and the delivered image, if any.  Subscripting an absent frame
(crop(None)) raises a Python TypeError, modelled as the error case. -/
def stepImg (dead : List (ℕ × ℕ)) (calib : Option Grid) (r : GrabOut) :
    Except Unit (Option Grid × Option Grid) :=
  if r.status = 1 then
    match r.frame with
    | none => Except.error ()
    | some f => Except.ok (some (calibOf f), none)
  else if r.status = 3 then
    match calib with
    | none => Except.ok (calib, none)
    | some c =>
      match r.frame with
      | none => Except.error ()
      | some f => Except.ok (calib, some (imgOut dead f c))
  else Except.ok (calib, none)

/-- SeekPro.get_image's loop run over a finite list of simulated grab results:
the first delivered image ends the call; an exhausted list means the loop is
still waiting (the real call would block). -/
def getImageRun (dead : List (ℕ × ℕ)) : Option Grid → List GrabOut → Except Unit (Option Grid)
  | _, [] => Except.ok none
  | calib, r :: rest =>
    match stepImg dead calib r with
    | Except.error e => Except.error e
    | Except.ok (_, some img) => Except.ok (some img)
    | Except.ok (c2, none) => getImageRun dead c2 rest

/-- Synthetic raw frame built by inverse-cropping a HEIGHT x WIDTH pattern
into the crop window, padding the border with arbitrary data (test-input
construction for the round-trip property). -/
def uncrop (pat bor : Grid) : Grid := fun a b =>
  if 4 ≤ a ∧ a < 4 + HEIGHT ∧ 1 ≤ b ∧ b < 1 + WIDTH then pat (a - 4) (b - 1) else bor a b

/-- Outcome of the dead-pixel discovery loop in SeekPro.__init__ (seekpro.py
lines 44-56): success with the attempt index and the threshold list, giving up
with the printed warning and an empty list, or the TypeError that
get_dead_pix_list(None) would raise on a status-4 result with an absent
frame. -/
inductive DiscoverOutcome where
  | found : ℕ → List (ℕ × ℕ) → DiscoverOutcome
  | gaveUp : DiscoverOutcome
  | typeErr : DiscoverOutcome

/-- The body of the for-i-in-range(5) loop of SeekPro.__init__: on i = 4 give
up (warning, empty list); otherwise run init() and grab() (whose simulated
result is results i) and stop when the status equals 4. -/
def discoverLoop (results : ℕ → ℕ × Option Grid) : List ℕ → DiscoverOutcome
  | [] => DiscoverOutcome.gaveUp
  | i :: rest =>
    if i = 4 then DiscoverOutcome.gaveUp
    else if (results i).1 = 4 then
      match (results i).2 with
      | some g => DiscoverOutcome.found i (get_dead_pix_list g)
      | none => DiscoverOutcome.typeErr
    else discoverLoop results rest

/-- Dead-pixel discovery as run by SeekPro.__init__ over for i in range(5). -/
def discover (results : ℕ → ℕ × Option Grid) : DiscoverOutcome :=
  discoverLoop results (List.range 5)

/-- A simulated session whose init()+grab() yields the dead-pixel-map status 4
only on the fifth attempt (index 4). -/
def resultsLate : ℕ → ℕ × Option Grid :=
  fun i => if i = 4 then (4, some (fun _ _ => 0)) else (0, none)

/-- A concrete image with a corner dead pixel at (0,0): the 2x2 clipped
neighbourhood holds the values 3, 0, 0, 3. -/
def imgCorner : Grid :=
  fun a b => if a = 0 ∧ b = 0 then 3 else if a = 1 ∧ b = 1 then 3 else 0

/-- A coordinate whose 3x3 neighbourhood is entirely inside the HEIGHT x WIDTH
image (no clipping). -/
def interiorP (p : ℕ × ℕ) : Prop :=
  1 ≤ p.1 ∧ p.1 + 1 < HEIGHT ∧ 1 ≤ p.2 ∧ p.2 + 1 < WIDTH

/-- Chebyshev distance at most 1: q lies in the (unclipped) 3x3 neighbourhood
of p.  Symmetric and reflexive. -/
def nearby (p q : ℕ × ℕ) : Prop :=
  p.1 ≤ q.1 + 1 ∧ q.1 ≤ p.1 + 1 ∧ p.2 ≤ q.2 + 1 ∧ q.2 ≤ p.2 + 1

/-- The eight neighbours of an interior pixel (i, j), excluding the pixel
itself, in row-major order. -/
def ringVals (img : Grid) (i j : ℕ) : List ℕ :=
  [img (i-1) (j-1), img (i-1) j, img (i-1) (j+1),
   img i (j-1), img i (j+1),
   img (i+1) (j-1), img (i+1) j, img (i+1) (j+1)]

-- Basic facts about the read loop.

theorem toread_eq : toread = 177840 := rfl

theorem readLoop_ok_length {chunks : List (List ℕ)} {acc ret : List ℕ}
    (h : readLoop chunks acc = Except.ok ret) : toread ≤ ret.length + 512 := by
  induction chunks generalizing acc with
  | nil =>
    simp only [readLoop] at h
    split at h
    · cases h; assumption
    · cases h
  | cons c rest ih =>
    simp only [readLoop] at h
    split at h
    · cases h; assumption
    · exact ih h

theorem readLoop_error_timeout {chunks : List (List ℕ)} {acc : List ℕ} {e : GrabError}
    (h : readLoop chunks acc = Except.error e) : e = GrabError.timeout := by
  induction chunks generalizing acc with
  | nil =>
    simp only [readLoop] at h
    split at h
    · cases h
    · cases h; rfl
  | cons c rest ih =>
    simp only [readLoop] at h
    split at h
    · cases h
    · exact ih h

theorem grabRet_ok_length {chunks : List (List ℕ)} {ret : List ℕ}
    (h : grabRet chunks = Except.ok ret) : toread ≤ ret.length + 512 := by
  match chunks with
  | [] => simp [grabRet] at h
  | c :: rest => exact readLoop_ok_length h

/-- Claim C9 (confirmed): whenever grab's read loop exits normally, the
accumulated buffer holds at least 174960 - 512 = 174448 bytes (the loop
condition remaining > 512 guarantees it, the true bound being
177840 - 512 = 177328), hence the unguarded status-byte read ret[4] is always
in bounds and grab can never fail with an index error. -/
theorem grab_status_index_safe :
    (∀ (chunks : List (List ℕ)) (acc ret : List ℕ),
      readLoop chunks acc = Except.ok ret → 174448 ≤ ret.length ∧ 4 < ret.length) ∧
    (∀ chunks : List (List ℕ), grabModel chunks ≠ Except.error GrabError.indexOOB) := by
  constructor
  · intro chunks acc ret h
    have := readLoop_ok_length h
    rw [toread_eq] at this
    omega
  · intro chunks
    unfold grabModel
    cases hr : grabRet chunks with
    | error e =>
      have he : e = GrabError.timeout := by
        match chunks with
        | [] => simp [grabRet] at hr; simp [hr]
        | c :: rest => exact readLoop_error_timeout hr
      rw [he]
      simp [grabFinish]
    | ok ret =>
      have hlen : toread ≤ ret.length + 512 := grabRet_ok_length hr
      rw [toread_eq] at hlen
      have h4 : 4 < ret.length := by omega
      have hsome : ret.get? 4 = some (ret.get ⟨4, h4⟩) := List.get?_eq_get h4
      simp only [grabFinish, hsome]
      split <;> simp

/-- Claim C1 (corrected): the code accepts a bulk-read total within the
512-byte tolerance in the sense that the read loop stops, but it reshapes the
frame only when the accumulated length is exactly toread = 177840 = 2*342*260
bytes (not 174960): a sequence totaling toread - 200 yields the status with the
frame reported absent, a sequence short by 600 bytes does not terminate the
loop (the code would issue a further bulk read, a timeout in simulation), and a
reshaped frame is returned if and only if the accumulated length is exactly
toread. -/
theorem grab_frame_iff_exact :
    (∀ c : List ℕ, c.length = toread - 200 → grabModel [c] = Except.ok (c.getD 4 0, none)) ∧
    (∀ c : List ℕ, c.length = toread - 600 → grabModel [c] = Except.error GrabError.timeout) ∧
    (∀ (chunks : List (List ℕ)) (s : ℕ) (fr : Grid),
      grabModel chunks = Except.ok (s, some fr) ↔
        ∃ ret, grabRet chunks = Except.ok ret ∧ ret.length = toread ∧
          s = ret.getD 4 0 ∧ fr = reshape ret) := by
  refine ⟨?_, ?_, ?_⟩
  · intro c hc
    have h4 : 4 < c.length := by rw [hc, toread_eq]; norm_num
    have hsome : c.get? 4 = some (c.get ⟨4, h4⟩) := List.get?_eq_get h4
    have hgd : c.getD 4 0 = c.get ⟨4, h4⟩ := List.getD_eq_get c 0 h4
    have hr : grabRet [c] = Except.ok c := by
      simp only [grabRet, readLoop]
      rw [if_pos (by rw [hc, toread_eq]; norm_num)]
    unfold grabModel
    rw [hr]
    simp only [grabFinish, hsome]
    rw [if_neg (by rw [hc, toread_eq]; norm_num), hgd]
  · intro c hc
    have hr : grabRet [c] = Except.error GrabError.timeout := by
      simp only [grabRet, readLoop]
      rw [if_neg (by rw [hc, toread_eq]; norm_num)]
    unfold grabModel
    rw [hr]
    rfl
  · intro chunks s fr
    constructor
    · intro h
      unfold grabModel at h
      cases hr : grabRet chunks with
      | error e => rw [hr] at h; simp [grabFinish] at h
      | ok ret =>
        rw [hr] at h
        cases h4q : ret.get? 4 with
        | none => simp only [grabFinish, h4q] at h; cases h
        | some v =>
          simp only [grabFinish, h4q] at h
          split at h
          · rw [Except.ok.injEq, Prod.mk.injEq, Option.some.injEq] at h
            refine ⟨ret, rfl, by assumption, ?_, h.2.symm⟩
            have hv : ret.getD 4 0 = v := by
              rw [List.getD_eq_getD_get? ret 0 4, h4q]; rfl
            rw [hv]; exact h.1.symm
          · simp at h
    · rintro ⟨ret, hret, hlen, hs, hfr⟩
      have h4 : 4 < ret.length := by rw [hlen, toread_eq]; norm_num
      have hsome : ret.get? 4 = some (ret.get ⟨4, h4⟩) := List.get?_eq_get h4
      have hgd : ret.getD 4 0 = ret.get ⟨4, h4⟩ := List.getD_eq_get ret 0 h4
      unfold grabModel
      rw [hret]
      simp only [grabFinish, hsome]
      rw [if_pos hlen, hs, hfr, hgd]

/-- Witness for C1: a single chunk of toread - 200 = 177640 bytes of value 7
terminates the loop within tolerance and is reported status 7, frame absent. -/
theorem grab_frame_iff_exact_witness :
    grabModel [List.replicate 177640 7] = Except.ok (7, none) := by
  have hlen : (List.replicate 177640 (7 : ℕ)).length = toread - 200 := by
    rw [List.length_replicate, toread_eq]
  have h := grab_frame_iff_exact.1 (List.replicate 177640 7) hlen
  rw [h]
  have hgd : (List.replicate 177640 (7 : ℕ)).getD 4 0 = 7 := by
    rw [List.getD_eq_get _ _ (by rw [List.length_replicate]; norm_num)]
    exact List.get_replicate _ _
  rw [hgd]

/-- Counterexample for C1 as stated: a simulated bulk-read sequence whose
accumulated total is 174960 - 200 bytes is not accepted and reshaped; the read
loop still wants more data (174960 - 200 is 3080 bytes short of the true frame
size 177840), so grab would block on a further bulk read. -/
theorem grab_tolerance_counterexample :
    grabModel [List.replicate (174960 - 200) 0] = Except.error GrabError.timeout := by
  have hl : (List.replicate (174960 - 200) (0 : ℕ)).length = 174760 := by
    rw [List.length_replicate]
  have hr : grabRet [List.replicate (174960 - 200) 0] = Except.error GrabError.timeout := by
    simp only [grabRet, readLoop, hl, toread_eq]
    norm_num
  unfold grabModel
  rw [hr]
  rfl

/-- Claim C4 (corrected): for raw frames of the actual full size
toread = 177840 bytes (the claim said 174960) viewed as a 260x342 grid, crop
yields exactly the sub-grid of source rows [4, 244) and source columns
[1, 321), i.e. output cell (i, j) with i < 240, j < 320 reads source cell
(i + 4, j + 1), and every source cell in that window is reached. -/
theorem crop_window_exact :
    (∀ (raw : Grid) (i j : ℕ), i < HEIGHT → j < WIDTH →
      crop raw i j = raw (i + 4) (j + 1) ∧
      4 ≤ i + 4 ∧ i + 4 < 4 + HEIGHT ∧ 1 ≤ j + 1 ∧ j + 1 < 1 + WIDTH) ∧
    (∀ a b : ℕ, 4 ≤ a → a < 4 + HEIGHT → 1 ≤ b → b < 1 + WIDTH →
      ∃ i j, i < HEIGHT ∧ j < WIDTH ∧ a = i + 4 ∧ b = j + 1) := by
  constructor
  · intro raw i j hi hj
    exact ⟨rfl, by omega, by omega, by omega, by omega⟩
  · intro a b h1 h2 h3 h4
    exact ⟨a - 4, b - 1, by omega, by omega, by omega, by omega⟩

/-- Witness for C4 at a concrete raw image and output coordinate. -/
theorem crop_window_exact_witness :
    crop (fun a b => 1000 * a + b) 10 20 = 14021 := by
  have h := (crop_window_exact.1 (fun a b => 1000 * a + b) 10 20
    (by norm_num [HEIGHT]) (by norm_num [WIDTH])).1
  rw [h]

/-- Counterexample for C4 as stated: the code's raw-frame byte size is
2*342*260 = 177840, not 174960, and a bulk sequence totaling exactly 174960
bytes is never reshaped (the read loop is still 2880 bytes short). -/
theorem raw_frame_size_counterexample :
    toread = 177840 ∧ toread ≠ 174960 ∧
    grabModel [List.replicate 174960 0] = Except.error GrabError.timeout := by
  refine ⟨rfl, by rw [toread_eq]; norm_num, ?_⟩
  have hl : (List.replicate 174960 (0 : ℕ)).length = 174960 := List.length_replicate _ _
  have hr : grabRet [List.replicate 174960 0] = Except.error GrabError.timeout := by
    simp only [grabRet, readLoop, hl, toread_eq]
    norm_num
  unfold grabModel
  rw [hr]
  rfl

/-- Witness for C9 at a concrete full-size buffer. -/
theorem grab_status_index_safe_witness :
    174448 ≤ (List.replicate 177840 (0 : ℕ)).length :=
  (grab_status_index_safe.1 [] (List.replicate 177840 0) (List.replicate 177840 0)
    (by
      have hl : (List.replicate 177840 (0 : ℕ)).length = 177840 := List.length_replicate _ _
      simp only [readLoop, hl, toread_eq]
      norm_num)).1

-- The get_image state machine.

theorem stepImg_none_of_ne_one (dead : List (ℕ × ℕ)) (r : GrabOut) (h : r.status ≠ 1) :
    stepImg dead none r = Except.ok (none, none) := by
  unfold stepImg
  rw [if_neg h]
  by_cases h3 : r.status = 3
  · rw [if_pos h3]
  · rw [if_neg h3]

/-- Claim C2 (confirmed): get_image never delivers an image before a
calibration-status frame has been observed: a run started with no calibration
reference and containing no status-1 result delivers nothing (whatever the
other statuses and frames are), and in the sequence status 3, status 1,
status 3 the image is delivered exactly on the final frame, corrected with the
calibration reference taken from the status-1 frame. -/
theorem get_image_requires_calibration :
    (∀ (dead : List (ℕ × ℕ)) (rs : List GrabOut), (∀ r ∈ rs, r.status ≠ 1) →
      getImageRun dead none rs = Except.ok none) ∧
    (∀ (dead : List (ℕ × ℕ)) (f g h : Grid),
      getImageRun dead none [⟨3, some f⟩, ⟨1, some g⟩, ⟨3, some h⟩] =
        Except.ok (some (imgOut dead h (calibOf g)))) := by
  constructor
  · intro dead rs hrs
    induction rs with
    | nil => rfl
    | cons r rest ih =>
      have hr : r.status ≠ 1 := hrs r (List.mem_cons_self r rest)
      simp only [getImageRun, stepImg_none_of_ne_one dead r hr]
      exact ih (fun q hq => hrs q (List.mem_cons_of_mem r hq))
  · intro dead f g h
    rfl

/-- Witness for C2: a concrete two-frame run with no status-1 frame delivers
no image. -/
theorem get_image_requires_calibration_witness :
    getImageRun [] none [⟨3, some (fun _ _ => 5)⟩, ⟨7, none⟩] = Except.ok none := by
  have h := get_image_requires_calibration.1 [] [⟨3, some (fun _ _ => 5)⟩, ⟨7, none⟩]
  apply h
  intro r hr
  rcases List.mem_cons.1 hr with h1 | h1
  · rw [h1]; decide
  · rcases List.mem_cons.1 h1 with h2 | h2
    · rw [h2]; decide
    · cases h2

/-- Claim C3 (corrected): a frame with a status other than 1 and 3 is
discarded and the loop continues, and a frame-absent result with status 3 is
absorbed while the calibration reference is still unset; but a frame-absent
result with status 1, or with status 3 once the reference is set, is not
silently absorbed: the code subscripts None (crop(None)) and raises a
TypeError. -/
theorem step_status_handling :
    ∀ (dead : List (ℕ × ℕ)) (calib : Option Grid) (r : GrabOut),
      (r.status ≠ 1 → r.status ≠ 3 → stepImg dead calib r = Except.ok (calib, none)) ∧
      (r.status = 3 → calib = none → stepImg dead calib r = Except.ok (none, none)) ∧
      (r.status = 1 → r.frame = none → stepImg dead calib r = Except.error ()) ∧
      (r.status = 3 → r.frame = none → ∀ c, calib = some c →
        stepImg dead calib r = Except.error ()) := by
  intro dead calib r
  refine ⟨?_, ?_, ?_, ?_⟩
  · intro h1 h3
    unfold stepImg
    rw [if_neg h1, if_neg h3]
  · intro h3 hc
    subst hc
    have h1 : r.status ≠ 1 := by rw [h3]; decide
    unfold stepImg
    rw [if_neg h1, if_pos h3]
  · intro h1 hf
    unfold stepImg
    rw [if_pos h1, hf]
  · intro h3 hf c hc
    have h1 : r.status ≠ 1 := by rw [h3]; decide
    unfold stepImg
    rw [if_neg h1, if_pos h3, hc, hf]

/-- Witness for C3's amended statement: a status-7 frame-absent result is
discarded with the loop state unchanged. -/
theorem step_status_handling_witness :
    stepImg [] none ⟨7, none⟩ = Except.ok (none, none) :=
  (step_status_handling [] none ⟨7, none⟩).1 (by decide) (by decide)

/-- Counterexample for C3 as stated: a frame-absent grab result with status 1
is not silently absorbed; get_image raises a TypeError on crop(None). -/
theorem absent_frame_error_counterexample :
    getImageRun [] none [⟨1, none⟩] = Except.error () := rfl

/-- Claim C5 (corrected): the stored calibration reference is the uint16 grid
(crop(frame) - 1600) mod 2^16, which agrees with the signed difference
crop(frame) - 1600 exactly when every cropped sample is at least 1600 (16-bit
samples wrap below that); and crop of an inverse-cropped pattern reproduces
the pattern exactly, with no rounding loss. -/
theorem calib_mod_and_roundtrip :
    (∀ (raw : Grid) (i j : ℕ),
      (calibOf raw i j : ℤ) = ((crop raw i j : ℤ) - 1600) % 65536) ∧
    (∀ (raw : Grid) (i j : ℕ), 1600 ≤ crop raw i j → crop raw i j < 65536 →
      calibOf raw i j = crop raw i j - 1600) ∧
    (∀ (pat bor : Grid) (i j : ℕ), i < HEIGHT → j < WIDTH →
      crop (uncrop pat bor) i j = pat i j) := by
  refine ⟨?_, ?_, ?_⟩
  · intro raw i j
    show (((crop raw i j + (65536 - 1600 % 65536)) % 65536 : ℕ) : ℤ) = _
    push_cast
    omega
  · intro raw i j h1 h2
    show (crop raw i j + (65536 - 1600 % 65536)) % 65536 = crop raw i j - 1600
    omega
  · intro pat bor i j hi hj
    show uncrop pat bor (i + 4) (j + 1) = pat i j
    unfold uncrop
    rw [if_pos (by omega)]
    congr 1

/-- Witness for C5 at a concrete in-range pattern. -/
theorem calib_mod_and_roundtrip_witness :
    calibOf (fun _ _ => 2000) 0 0 = 400 := by
  have h := calib_mod_and_roundtrip.2.1 (fun _ _ => 2000) 0 0 (by norm_num [crop]) (by norm_num [crop])
  rw [h]
  norm_num [crop]

/-- Counterexample for C5 as stated: on an all-zero status-1 frame the stored
reference holds (0 - 1600) mod 2^16 = 63936, not the signed value -1600; the
16-bit unsigned arithmetic wraps. -/
theorem calib_wraparound_counterexample :
    stepImg [] none ⟨1, some (fun _ _ => 0)⟩ =
      Except.ok (some (calibOf (fun _ _ => 0)), none) ∧
    calibOf (fun _ _ => 0) 0 0 = 63936 ∧ ((0 : ℤ) - 1600 ≠ (63936 : ℤ)) := by
  refine ⟨rfl, rfl, by norm_num⟩

-- The clipped neighbourhood.

theorem mem_windowRows (i a : ℕ) (hi : i < HEIGHT) :
    a ∈ windowRows i ↔ (i - 1 ≤ a ∧ a < i + 2 ∧ a < HEIGHT) := by
  unfold windowRows
  rw [List.mem_range'_1]
  omega

theorem mem_windowCols (j b : ℕ) (hj : j < WIDTH) :
    b ∈ windowCols j ↔ (j - 1 ≤ b ∧ b < j + 2 ∧ b < WIDTH) := by
  unfold windowCols
  rw [List.mem_range'_1]
  omega

theorem mem_windowCells (i j a b : ℕ) (hi : i < HEIGHT) (hj : j < WIDTH) :
    (a, b) ∈ windowCells i j ↔
      (i - 1 ≤ a ∧ a < i + 2 ∧ a < HEIGHT ∧ j - 1 ≤ b ∧ b < j + 2 ∧ b < WIDTH) := by
  unfold windowCells
  simp only [List.mem_flatMap, List.mem_map, Prod.mk.injEq]
  constructor
  · rintro ⟨x, hx, y, hy, rfl, rfl⟩
    have hx2 := (mem_windowRows i x hi).1 hx
    have hy2 := (mem_windowCols j y hj).1 hy
    exact ⟨hx2.1, hx2.2.1, hx2.2.2, hy2.1, hy2.2.1, hy2.2.2⟩
  · rintro ⟨h1, h2, h3, h4, h5, h6⟩
    exact ⟨a, (mem_windowRows i a hi).2 ⟨h1, h2, h3⟩, b,
      (mem_windowCols j b hj).2 ⟨h4, h5, h6⟩, rfl, rfl⟩

/-- Claim C7 (confirmed): for every coordinate inside the image, including
edges and corners, the interpolation neighbourhood is exactly the rectangle
rows [i-1, i+2) x cols [j-1, j+2) intersected with the image bounds (natural
subtraction realises max(0, i-1), so indices never wrap), the pixel itself
always belongs to it, and the window is never empty — no out-of-bounds access
can occur. -/
theorem dead_pix_window_clipped :
    ∀ (img : Grid) (i j : ℕ), i < HEIGHT → j < WIDTH →
      ((i, j) ∈ windowCells i j ∧ deadWindow img i j ≠ [] ∧
       ∀ a b : ℕ, ((a, b) ∈ windowCells i j ↔
         (i - 1 ≤ a ∧ a < i + 2 ∧ a < HEIGHT ∧ j - 1 ≤ b ∧ b < j + 2 ∧ b < WIDTH))) := by
  intro img i j hi hj
  have hself : (i, j) ∈ windowCells i j := (mem_windowCells i j i j hi hj).2 (by omega)
  refine ⟨hself, ?_, fun a b => mem_windowCells i j a b hi hj⟩
  unfold deadWindow
  intro hempty
  rw [List.map_eq_nil] at hempty
  rw [hempty] at hself
  cases hself

/-- Witness for C7 at the bottom-right corner pixel. -/
theorem dead_pix_window_clipped_witness :
    deadWindow (fun _ _ => 5) 239 319 ≠ [] :=
  (dead_pix_window_clipped (fun _ _ => 5) 239 319 (by norm_num [HEIGHT])
    (by norm_num [WIDTH])).2.1

/-- Claim C10 (confirmed): correct_dead_pix processes dead pixels sequentially
in list order, each update being written into the image that later medians
read (the foldl recurrence threads the updated image), each replacement is the
median of the clipped window of the current image, and that window always
contains the pixel's own cell. -/
theorem correct_dead_pix_sequential :
    (∀ (img : Grid) (p : ℕ × ℕ) (ps : List (ℕ × ℕ)),
      correct_dead_pix (p :: ps) img =
        correct_dead_pix ps (setPix img p.1 p.2 (npMedian (deadWindow img p.1 p.2)))) ∧
    (∀ img : Grid, correct_dead_pix [] img = img) ∧
    (∀ i j : ℕ, i < HEIGHT → j < WIDTH → (i, j) ∈ windowCells i j) := by
  refine ⟨fun img p ps => rfl, fun img => rfl, ?_⟩
  intro i j hi hj
  exact (mem_windowCells i j i j hi hj).2 (by omega)

/-- Witness for C10: the window self-membership at a concrete coordinate. -/
theorem correct_dead_pix_sequential_witness : (5, 6) ∈ windowCells 5 6 :=
  correct_dead_pix_sequential.2.2 5 6 (by norm_num [HEIGHT]) (by norm_num [WIDTH])

-- Dead-pixel discovery.

/-- Claim C8 (corrected): the discovery loop for i in range(5) reserves its
final iteration for giving up, so it performs at most four init()+grab()
attempts: a status-4 frame on attempt i < 4 (with a present frame) succeeds
with exactly the coordinates of cropped samples below 100, while sessions with
no status-4 frame among the first four attempts give up with a printed warning
and an empty dead-pixel list, raising no error. -/
theorem discovery_budget :
    (∀ results : ℕ → ℕ × Option Grid, (∀ k, k < 4 → (results k).1 ≠ 4) →
      discover results = DiscoverOutcome.gaveUp) ∧
    (∀ (results : ℕ → ℕ × Option Grid) (i : ℕ), i < 4 → (∀ k, k < i → (results k).1 ≠ 4) →
      (results i).1 = 4 → ∀ g, (results i).2 = some g →
      discover results = DiscoverOutcome.found i (get_dead_pix_list g)) ∧
    (∀ (g : Grid) (a b : ℕ), (a, b) ∈ get_dead_pix_list g ↔
      (a < HEIGHT ∧ b < WIDTH ∧ crop g a b < 100)) := by
  refine ⟨?_, ?_, ?_⟩
  · intro results h
    have h0 := h 0 (by norm_num)
    have h1 := h 1 (by norm_num)
    have h2 := h 2 (by norm_num)
    have h3 := h 3 (by norm_num)
    unfold discover
    rw [show List.range 5 = [0, 1, 2, 3, 4] from rfl]
    simp [discoverLoop, h0, h1, h2, h3]
  · intro results i hi hprev h4 g hg
    unfold discover
    rw [show List.range 5 = [0, 1, 2, 3, 4] from rfl]
    interval_cases i
    · simp [discoverLoop, h4, hg]
    · have h0 := hprev 0 (by norm_num)
      simp [discoverLoop, h0, h4, hg]
    · have h0 := hprev 0 (by norm_num)
      have h1 := hprev 1 (by norm_num)
      simp [discoverLoop, h0, h1, h4, hg]
    · have h0 := hprev 0 (by norm_num)
      have h1 := hprev 1 (by norm_num)
      have h2 := hprev 2 (by norm_num)
      simp [discoverLoop, h0, h1, h2, h4, hg]
  · intro g a b
    simp only [get_dead_pix_list, List.mem_flatMap, List.mem_map, List.mem_filter,
      List.mem_range, decide_eq_true_eq, Prod.mk.injEq]
    constructor
    · rintro ⟨i, hi, j, ⟨hj, hlt⟩, rfl, rfl⟩
      exact ⟨hi, hj, hlt⟩
    · rintro ⟨ha, hb, hlt⟩
      exact ⟨a, ha, b, ⟨hb, hlt⟩, rfl, rfl⟩

/-- Witness for C8: a session that never produces status 4 gives up without
raising. -/
theorem discovery_budget_witness :
    discover (fun _ => (0, (none : Option Grid))) = DiscoverOutcome.gaveUp := by
  apply discovery_budget.1
  intro k hk
  decide

/-- Counterexample for C8 as stated: a status-4 frame arriving on the fifth
attempt (index 4) is within a five-attempt budget, yet the code gives up
without grabbing it. -/
theorem discovery_fifth_attempt_counterexample :
    discover resultsLate = DiscoverOutcome.gaveUp ∧ (resultsLate 4).1 = 4 :=
  ⟨rfl, rfl⟩

-- Sorting and median facts used for the idempotence analysis.

theorem sortNat_sorted (l : List ℕ) : List.Sorted (fun a b => a ≤ b) (sortNat l) :=
  List.sorted_insertionSort _ l

theorem sortNat_perm (l : List ℕ) : List.Perm (sortNat l) l := List.perm_insertionSort _ l

theorem sortNat_length (l : List ℕ) : (sortNat l).length = l.length := (sortNat_perm l).length_eq

theorem sortNat_countP (p : ℕ → Bool) (l : List ℕ) : (sortNat l).countP p = l.countP p :=
  (sortNat_perm l).countP_eq p

theorem sortNat_congr_perm {l l2 : List ℕ} (h : List.Perm l l2) : sortNat l = sortNat l2 :=
  List.eq_of_perm_of_sorted (((sortNat_perm l).trans h).trans (sortNat_perm l2).symm)
    (sortNat_sorted l) (sortNat_sorted l2)

theorem npMedian_perm {l l2 : List ℕ} (h : List.Perm l l2) : npMedian l = npMedian l2 := by
  unfold npMedian
  rw [h.length_eq, sortNat_congr_perm h]

theorem sorted_getD_lt :
    ∀ (s : List ℕ), List.Sorted (fun a b => a ≤ b) s → ∀ (m k : ℕ), k < s.length →
      (s.getD k 0 < m ↔ k < s.countP (fun y => decide (y < m))) := by
  intro s
  induction s with
  | nil => intro _ m k hk; simp at hk
  | cons x t ih =>
    intro hs m k hk
    rw [List.sorted_cons] at hs
    obtain ⟨hx, ht⟩ := hs
    rw [List.countP_cons]
    rcases k with _ | k
    · rw [List.getD_cons_zero]
      rcases Nat.lt_or_ge x m with hxm | hxm
      · have hd : decide (x < m) = true := decide_eq_true hxm
        simp [hd, hxm]
      · have hd : decide (x < m) = false := decide_eq_false (by omega)
        have h0 : t.countP (fun y => decide (y < m)) = 0 := by
          rw [List.countP_eq_zero]
          intro a ha
          simp only [decide_eq_true_eq]
          intro ham
          exact absurd (lt_of_le_of_lt (hx a ha) ham) (by omega)
        simp [hd, h0]
        omega
    · rw [List.getD_cons_succ]
      have hk2 : k < t.length := by simp at hk; omega
      rw [ih ht m k hk2]
      rcases Nat.lt_or_ge x m with hxm | hxm
      · have hd : decide (x < m) = true := decide_eq_true hxm
        simp [hd]
      · have hd : decide (x < m) = false := decide_eq_false (by omega)
        have h0 : t.countP (fun y => decide (y < m)) = 0 := by
          rw [List.countP_eq_zero]
          intro a ha
          simp only [decide_eq_true_eq]
          intro ham
          exact absurd (lt_of_le_of_lt (hx a ha) ham) (by omega)
        simp [hd, h0]

theorem sorted_getD_gt :
    ∀ (s : List ℕ), List.Sorted (fun a b => a ≤ b) s → ∀ (m k : ℕ), k < s.length →
      (m < s.getD k 0 ↔ s.length - s.countP (fun y => decide (m < y)) ≤ k) := by
  intro s
  induction s with
  | nil => intro _ m k hk; simp at hk
  | cons x t ih =>
    intro hs m k hk
    rw [List.sorted_cons] at hs
    obtain ⟨hx, ht⟩ := hs
    have hct : t.countP (fun y => decide (m < y)) ≤ t.length := List.countP_le_length _
    rw [List.countP_cons]
    rcases k with _ | k
    · rw [List.getD_cons_zero]
      rcases Nat.lt_or_ge m x with hmx | hmx
      · have hfull : t.countP (fun y => decide (m < y)) = t.length := by
          rw [List.countP_eq_length]
          intro a ha
          exact decide_eq_true (lt_of_lt_of_le hmx (hx a ha))
        have hd : decide (m < x) = true := decide_eq_true hmx
        simp [hd, hfull, hmx]
      · have hd : decide (m < x) = false := decide_eq_false (by omega)
        simp [hd, List.length_cons]
        omega
    · rw [List.getD_cons_succ]
      have hk2 : k < t.length := by simp at hk; omega
      rw [ih ht m k hk2]
      rcases Nat.lt_or_ge m x with hmx | hmx
      · have hfull : t.countP (fun y => decide (m < y)) = t.length := by
          rw [List.countP_eq_length]
          intro a ha
          exact decide_eq_true (lt_of_lt_of_le hmx (hx a ha))
        have hd : decide (m < x) = true := decide_eq_true hmx
        simp [hd, hfull, List.length_cons]
      · have hd : decide (m < x) = false := decide_eq_false (by omega)
        simp [hd, List.length_cons]
        omega

theorem npMedian_odd9 (l : List ℕ) (h : l.length = 9) :
    npMedian l = (sortNat l).getD 4 0 := by
  unfold npMedian
  rw [h]
  norm_num

/-- The median of nine values is stable: replacing any one value of the
multiset by the nine-element median and taking the median again returns the
same value. -/
theorem npMedian_stable (S : List ℕ) (x : ℕ) (hS : S.length = 8) :
    npMedian (npMedian (x :: S) :: S) = npMedian (x :: S) := by
  have hl1 : (x :: S).length = 9 := by simp [hS]
  have hs1len : (sortNat (x :: S)).length = 9 := by rw [sortNat_length, hl1]
  set m := npMedian (x :: S) with hmdef
  have hm : m = (sortNat (x :: S)).getD 4 0 := npMedian_odd9 _ hl1
  have hlt1 : ¬ ((sortNat (x :: S)).getD 4 0 < m) := by rw [← hm]; exact lt_irrefl m
  have hgt1 : ¬ (m < (sortNat (x :: S)).getD 4 0) := by rw [← hm]; exact lt_irrefl m
  rw [sorted_getD_lt _ (sortNat_sorted _) m 4 (by omega)] at hlt1
  rw [sorted_getD_gt _ (sortNat_sorted _) m 4 (by omega)] at hgt1
  rw [sortNat_countP] at hlt1 hgt1
  rw [hs1len] at hgt1
  have hcx1 := List.countP_cons (fun y => decide (y < m)) x S
  have hcx2 := List.countP_cons (fun y => decide (m < y)) x S
  have hcS1 : S.countP (fun y => decide (y < m)) ≤ 4 := by
    rw [hcx1] at hlt1; split at hlt1 <;> omega
  have hcS2 : S.countP (fun y => decide (m < y)) ≤ 4 := by
    rw [hcx2] at hgt1; split at hgt1 <;> omega
  have hl2 : (m :: S).length = 9 := by simp [hS]
  have hs2len : (sortNat (m :: S)).length = 9 := by rw [sortNat_length, hl2]
  rw [npMedian_odd9 _ hl2]
  have hdm : decide (m < m) = false := decide_eq_false (lt_irrefl m)
  have hc21 : (m :: S).countP (fun y => decide (y < m)) ≤ 4 := by
    rw [List.countP_cons]
    simp only [hdm, Bool.false_eq_true, if_false]
    omega
  have hc22 : (m :: S).countP (fun y => decide (m < y)) ≤ 4 := by
    rw [List.countP_cons]
    simp only [hdm, Bool.false_eq_true, if_false]
    omega
  have ha : ¬ ((sortNat (m :: S)).getD 4 0 < m) := by
    rw [sorted_getD_lt _ (sortNat_sorted _) m 4 (by omega), sortNat_countP]
    omega
  have hb : ¬ (m < (sortNat (m :: S)).getD 4 0) := by
    rw [sorted_getD_gt _ (sortNat_sorted _) m 4 (by omega), sortNat_countP, hs2len]
    omega
  omega

-- Geometry of interior windows.

theorem nearby_pair (i j a b : ℕ) :
    nearby (i, j) (a, b) ↔ (i ≤ a + 1 ∧ a ≤ i + 1 ∧ j ≤ b + 1 ∧ b ≤ j + 1) := Iff.rfl

theorem nearby_symm {p q : ℕ × ℕ} (h : nearby p q) : nearby q p := by
  unfold nearby at h
  unfold nearby
  omega

theorem windowRows_interior (i : ℕ) (h1 : 1 ≤ i) (h2 : i + 1 < HEIGHT) :
    windowRows i = [i - 1, i, i + 1] := by
  unfold windowRows
  have hH : HEIGHT = 240 := rfl
  have hc : min (i + 2) HEIGHT - (i - 1) = 3 := by omega
  rw [hc]
  have h3 : List.range' (i - 1) 3 = [i - 1, i - 1 + 1, i - 1 + 2] := rfl
  rw [h3]
  have e1 : i - 1 + 1 = i := by omega
  have e2 : i - 1 + 2 = i + 1 := by omega
  rw [e1, e2]

theorem windowCols_interior (j : ℕ) (h1 : 1 ≤ j) (h2 : j + 1 < WIDTH) :
    windowCols j = [j - 1, j, j + 1] := by
  unfold windowCols
  have hW : WIDTH = 320 := rfl
  have hc : min (j + 2) WIDTH - (j - 1) = 3 := by omega
  rw [hc]
  have h3 : List.range' (j - 1) 3 = [j - 1, j - 1 + 1, j - 1 + 2] := rfl
  rw [h3]
  have e1 : j - 1 + 1 = j := by omega
  have e2 : j - 1 + 2 = j + 1 := by omega
  rw [e1, e2]

theorem windowCells_interior (i j : ℕ) (h1 : 1 ≤ i) (h2 : i + 1 < HEIGHT)
    (h3 : 1 ≤ j) (h4 : j + 1 < WIDTH) :
    windowCells i j =
      [(i-1, j-1), (i-1, j), (i-1, j+1),
       (i, j-1), (i, j), (i, j+1),
       (i+1, j-1), (i+1, j), (i+1, j+1)] := by
  unfold windowCells
  rw [windowRows_interior i h1 h2, windowCols_interior j h3 h4]
  rfl

theorem deadWindow_perm (img : Grid) (i j : ℕ) (h1 : 1 ≤ i) (h2 : i + 1 < HEIGHT)
    (h3 : 1 ≤ j) (h4 : j + 1 < WIDTH) :
    List.Perm (deadWindow img i j) (img i j :: ringVals img i j) := by
  unfold deadWindow ringVals
  rw [windowCells_interior i j h1 h2 h3 h4]
  exact @List.perm_middle ℕ (img i j)
    [img (i-1) (j-1), img (i-1) j, img (i-1) (j+1), img i (j-1)]
    [img i (j+1), img (i+1) (j-1), img (i+1) j, img (i+1) (j+1)]

theorem ringVals_congr (g img : Grid) (i j : ℕ) (h1 : 1 ≤ i) (h3 : 1 ≤ j)
    (hg : ∀ a b : ℕ, nearby (i, j) (a, b) → ¬(a = i ∧ b = j) → g a b = img a b) :
    ringVals g i j = ringVals img i j := by
  unfold ringVals
  rw [hg (i-1) (j-1) (by rw [nearby_pair]; omega) (by omega),
      hg (i-1) j (by rw [nearby_pair]; omega) (by omega),
      hg (i-1) (j+1) (by rw [nearby_pair]; omega) (by omega),
      hg i (j-1) (by rw [nearby_pair]; omega) (by omega),
      hg i (j+1) (by rw [nearby_pair]; omega) (by omega),
      hg (i+1) (j-1) (by rw [nearby_pair]; omega) (by omega),
      hg (i+1) j (by rw [nearby_pair]; omega) (by omega),
      hg (i+1) (j+1) (by rw [nearby_pair]; omega) (by omega)]

theorem deadWindow_congr (g img : Grid) (i j : ℕ) (h1 : 1 ≤ i) (h2 : i + 1 < HEIGHT)
    (h3 : 1 ≤ j) (h4 : j + 1 < WIDTH)
    (hg : ∀ a b : ℕ, nearby (i, j) (a, b) → g a b = img a b) :
    deadWindow g i j = deadWindow img i j := by
  unfold deadWindow
  rw [windowCells_interior i j h1 h2 h3 h4]
  simp only [List.map_cons, List.map_nil]
  rw [hg (i-1) (j-1) (by rw [nearby_pair]; omega),
      hg (i-1) j (by rw [nearby_pair]; omega),
      hg (i-1) (j+1) (by rw [nearby_pair]; omega),
      hg i (j-1) (by rw [nearby_pair]; omega),
      hg i j (by rw [nearby_pair]; omega),
      hg i (j+1) (by rw [nearby_pair]; omega),
      hg (i+1) (j-1) (by rw [nearby_pair]; omega),
      hg (i+1) j (by rw [nearby_pair]; omega),
      hg (i+1) (j+1) (by rw [nearby_pair]; omega)]

theorem correct_off_list (dead : List (ℕ × ℕ)) (g : Grid) (a b : ℕ)
    (h : ∀ p ∈ dead, p ≠ (a, b)) : correct_dead_pix dead g a b = g a b := by
  induction dead generalizing g with
  | nil => rfl
  | cons p rest ih =>
    have hp : p ≠ (a, b) := h p (List.mem_cons_self p rest)
    show correct_dead_pix rest (setPix g p.1 p.2 (npMedian (deadWindow g p.1 p.2))) a b = g a b
    rw [ih (setPix g p.1 p.2 (npMedian (deadWindow g p.1 p.2)))
      (fun q hq => h q (List.mem_cons_of_mem p hq))]
    unfold setPix
    rw [if_neg]
    rintro ⟨rfl, rfl⟩
    exact hp rfl

theorem correct_fold :
    ∀ (dead : List (ℕ × ℕ)) (g img : Grid),
      (∀ p ∈ dead, interiorP p) →
      List.Pairwise (fun p q => ¬ nearby p q) dead →
      (∀ p ∈ dead, ∀ a b : ℕ, nearby p (a, b) → g a b = img a b) →
      ∀ a b : ℕ, correct_dead_pix dead g a b =
        if (a, b) ∈ dead then npMedian (deadWindow img a b) else g a b := by
  intro dead
  induction dead with
  | nil => intro g img _ _ _ a b; simp [correct_dead_pix]
  | cons p rest ih =>
    intro g img hint hpw hagree a b
    obtain ⟨hpw1, hpw2⟩ := List.pairwise_cons.1 hpw
    have hpint : interiorP p := hint p (List.mem_cons_self p rest)
    have hwin : deadWindow g p.1 p.2 = deadWindow img p.1 p.2 := by
      apply deadWindow_congr g img p.1 p.2 hpint.1 hpint.2.1 hpint.2.2.1 hpint.2.2.2
      intro a2 b2 hn
      exact hagree p (List.mem_cons_self p rest) a2 b2 hn
    have hstep : correct_dead_pix (p :: rest) g =
        correct_dead_pix rest (setPix g p.1 p.2 (npMedian (deadWindow img p.1 p.2))) := by
      show correct_dead_pix rest (setPix g p.1 p.2 (npMedian (deadWindow g p.1 p.2))) = _
      rw [hwin]
    rw [hstep]
    have hagree2 : ∀ q ∈ rest, ∀ a2 b2 : ℕ, nearby q (a2, b2) →
        setPix g p.1 p.2 (npMedian (deadWindow img p.1 p.2)) a2 b2 = img a2 b2 := by
      intro q hq a2 b2 hn
      unfold setPix
      rw [if_neg, hagree q (List.mem_cons_of_mem p hq) a2 b2 hn]
      rintro ⟨rfl, rfl⟩
      exact (hpw1 q hq) (nearby_symm hn)
    rw [ih (setPix g p.1 p.2 (npMedian (deadWindow img p.1 p.2))) img
      (fun q hq => hint q (List.mem_cons_of_mem p hq)) hpw2 hagree2 a b]
    by_cases hmem : (a, b) ∈ rest
    · rw [if_pos hmem, if_pos (List.mem_cons_of_mem p hmem)]
    · rw [if_neg hmem]
      by_cases hp : (a, b) = p
      · subst hp
        rw [if_pos (List.mem_cons_self _ rest)]
        unfold setPix
        rw [if_pos ⟨rfl, rfl⟩]
      · rw [if_neg (by rw [List.mem_cons]; rintro (h1 | h1); exact hp h1; exact hmem h1)]
        unfold setPix
        rw [if_neg]
        rintro ⟨rfl, rfl⟩
        exact hp rfl

theorem correct_interior_idem (dead : List (ℕ × ℕ)) (img : Grid)
    (hint : ∀ p ∈ dead, interiorP p)
    (hpw : List.Pairwise (fun p q => ¬ nearby p q) dead) :
    ∀ a b : ℕ, correct_dead_pix dead (correct_dead_pix dead img) a b =
      correct_dead_pix dead img a b := by
  have h1 := correct_fold dead img img hint hpw (fun _ _ _ _ _ => rfl)
  have h2 := correct_fold dead (correct_dead_pix dead img) (correct_dead_pix dead img)
    hint hpw (fun _ _ _ _ _ => rfl)
  intro a b
  rw [h2 a b]
  by_cases hmem : (a, b) ∈ dead
  · rw [if_pos hmem]
    have hintab : interiorP (a, b) := hint (a, b) hmem
    obtain ⟨q1, q2, q3, q4⟩ := hintab
    have hsym : Symmetric (fun p q : ℕ × ℕ => ¬ nearby p q) :=
      fun p q h hn => h (nearby_symm hn)
    have hring : ringVals (correct_dead_pix dead img) a b = ringVals img a b := by
      apply ringVals_congr _ _ a b q1 q3
      intro a2 b2 hn hne
      apply correct_off_list
      intro q hq hqe
      have hqab : q ≠ (a, b) := by
        rw [hqe]
        intro hcon
        rw [Prod.mk.injEq] at hcon
        exact hne ⟨hcon.1, hcon.2⟩
      have hnn := List.Pairwise.forall hsym hpw hmem hq (fun hcon => hqab hcon.symm)
      rw [hqe] at hnn
      exact hnn hn
    have hcenter : correct_dead_pix dead img a b = npMedian (deadWindow img a b) := by
      rw [h1 a b, if_pos hmem]
    have hperm1 : List.Perm (deadWindow (correct_dead_pix dead img) a b)
        (correct_dead_pix dead img a b :: ringVals (correct_dead_pix dead img) a b) :=
      deadWindow_perm _ a b q1 q2 q3 q4
    have hperm0 : List.Perm (deadWindow img a b) (img a b :: ringVals img a b) :=
      deadWindow_perm img a b q1 q2 q3 q4
    have hlen8 : (ringVals img a b).length = 8 := rfl
    calc npMedian (deadWindow (correct_dead_pix dead img) a b)
        = npMedian (correct_dead_pix dead img a b ::
            ringVals (correct_dead_pix dead img) a b) := npMedian_perm hperm1
      _ = npMedian (npMedian (deadWindow img a b) :: ringVals img a b) := by
            rw [hcenter, hring]
      _ = npMedian (npMedian (img a b :: ringVals img a b) :: ringVals img a b) := by
            rw [npMedian_perm hperm0]
      _ = npMedian (img a b :: ringVals img a b) := npMedian_stable _ _ hlen8
      _ = npMedian (deadWindow img a b) := (npMedian_perm hperm0).symm
      _ = correct_dead_pix dead img a b := hcenter.symm
  · rw [if_neg hmem]

/-- Claim C6 (corrected): re-applying dead-pixel interpolation never changes a
pixel outside the list, and for dead pixels with full interior 3x3 windows
containing no other listed pixel the second application recomputes the
identical value (idempotence); but at clipped even-sized windows (edges and
corners) the float median is truncated on assignment, so a second application
can change the pixel again even for an isolated dead pixel. -/
theorem correct_dead_pix_outside_and_idem :
    (∀ (dead : List (ℕ × ℕ)) (img : Grid) (a b : ℕ), (∀ p ∈ dead, p ≠ (a, b)) →
      correct_dead_pix dead img a b = img a b) ∧
    (∀ (dead : List (ℕ × ℕ)) (img : Grid),
      (∀ p ∈ dead, interiorP p) → List.Pairwise (fun p q => ¬ nearby p q) dead →
      ∀ a b : ℕ, correct_dead_pix dead (correct_dead_pix dead img) a b =
        correct_dead_pix dead img a b) :=
  ⟨fun dead img a b h => correct_off_list dead img a b h,
   fun dead img h1 h2 => correct_interior_idem dead img h1 h2⟩

/-- Witness for C6 at a single interior dead pixel. -/
theorem correct_dead_pix_outside_and_idem_witness :
    correct_dead_pix [(5, 5)] (correct_dead_pix [(5, 5)] (fun a b => a + b)) 5 5 =
      correct_dead_pix [(5, 5)] (fun a b => a + b) 5 5 :=
  correct_dead_pix_outside_and_idem.2 [(5, 5)] (fun a b => a + b)
    (by
      intro p hp
      rw [List.mem_singleton] at hp
      subst hp
      unfold interiorP
      refine ⟨by norm_num, by norm_num [HEIGHT], by norm_num, by norm_num [WIDTH]⟩)
    (by simp)
    5 5

/-- Counterexample for C6 as stated: the isolated corner dead pixel (0,0) of
imgCorner has a stable (other-dead-pixel-free) neighbourhood, yet the first
application writes 1 (median 1.5 truncated) and the second application
recomputes 0. -/
theorem corner_median_counterexample :
    correct_dead_pix [(0, 0)] imgCorner 0 0 = 1 ∧
    correct_dead_pix [(0, 0)] (correct_dead_pix [(0, 0)] imgCorner) 0 0 = 0 := by
  constructor <;> decide
